import Mathlib

/-!
Verification of the `vesting-ondrix` Solana program (`vesting_ondrix_cont`).

The Rust sources are embedded shallowly:
* machine integers become `Nat` (for `u8/u16/u64/u128`, with an explicit
  `% 2 ^ 64` where the source casts a `u128` back down to `u64`) and `Int`
  (for `i64`);
* `Pubkey` values become `Nat` (the 32-byte array read as a little-endian
  number, which is exactly how the serializer lays it out); the all-zero
  `Pubkey::default()` is `0`;
* fallible operations return `Except`;
* the account byte buffers of `state.rs` become `List Nat` (one `Nat` per
  byte).

`state.rs` and `processor.rs` disagree about the recipient share field
(`basis_points : u16` in `state.rs`, `percentage : u8` in `processor.rs`)
and about the `is_revoked` flag (removed in `state.rs`, still used in
`processor.rs`).  Each file is embedded as written: the serialization model
follows `state.rs`, the processor model follows `processor.rs`.
-/

namespace VestingOndrix

/-- `VestingSchedule` from `state.rs`: cliff and vesting periods in seconds
(`i64`) and the TGE share (`u16` basis points in `state.rs`; `processor.rs`
stores its `tge_percentage` argument in this slot). -/
structure VestingSchedule where
  cliff_period : Int
  vesting_period : Int
  tge_basis_points : Nat
deriving DecidableEq

/-- The step table of `calculate_vested_amount` (`processor.rs:572-578`):
`match elapsed { 0..=299 => 10, 300..=599 => 20, 600..=899 => 50,
900..=1199 => 100, _ => 100 }`.  The wildcard arm also catches negative
`elapsed`, exactly as the Rust `match` on an `i64` does. -/
def vestPct (elapsed : Int) : Nat :=
  if 0 ≤ elapsed ∧ elapsed ≤ 299 then 10
  else if 300 ≤ elapsed ∧ elapsed ≤ 599 then 20
  else if 600 ≤ elapsed ∧ elapsed ≤ 899 then 50
  else if 900 ≤ elapsed ∧ elapsed ≤ 1199 then 100
  else 100

/-- `calculate_vested_amount` (`processor.rs:554-583`).  Note that the
`_schedule` parameter is bound but never read by the source; it is kept in
the signature for fidelity.  The final `(.. as u64)` cast of the `u128`
quotient is the `% 2 ^ 64`. -/
def calculate_vested_amount (total_amount : Nat) (current_time start_time : Int)
    (_schedule : VestingSchedule) : Nat :=
  if current_time < start_time then 0
  else (total_amount * vestPct (current_time - start_time) / 100) % (2 ^ 64)

/-- Modelled from the spec's words only (for the refinement claim C1): the
reference vesting curve — `0` before start, `floor(total*tgeBp/10000)`
below the cliff, `total` at or after `vestingPeriod`, and linear
interpolation over the post-cliff window otherwise. -/
def spec_vesting_curve (total : Nat) (now start : Int) (s : VestingSchedule) : Nat :=
  if now < start then 0
  else
    let elapsed := now - start
    let tgeAmount := total * s.tge_basis_points / 10000
    if elapsed < s.cliff_period then tgeAmount
    else if s.vesting_period ≤ elapsed then total
    else tgeAmount +
      (total - tgeAmount) * (elapsed - s.cliff_period).toNat /
        (s.vesting_period - s.cliff_period).toNat

/-- The step curve that the code actually implements (the amended reference
for C1): the schedule is never consulted; the payout is a fixed four-step
function of elapsed time alone. -/
def step_vesting_curve (total : Nat) (now start : Int) : Nat :=
  if now < start then 0
  else
    let elapsed := now - start
    if elapsed ≤ 299 then total * 10 / 100
    else if elapsed ≤ 599 then total * 20 / 100
    else if elapsed ≤ 899 then total * 50 / 100
    else total * 100 / 100

/-- `VestingError` from `processor.rs:24-56` (the order of constructors is
the source's declaration order). -/
inductive VestingError where
  | NotSigner | InvalidSystemProgram | InvalidTokenProgram | InvalidRentSysvar
  | InvalidVestingPeriod | CliffExceedsVesting | InvalidPercentage
  | InvalidRecipientCount | InvalidTotalPercentage | DuplicateRecipient
  | ZeroPercentage | InvalidPDA | AlreadyInitialized | NotInitialized
  | AlreadyFunded | InvalidAmount | InvalidTokenOwner | MintMismatch
  | InsufficientFunds | VestingRevoked | NotFunded | InvalidAuthority
  | InvalidRecipientATA | NoClaimableAmount | UnauthorizedAccess
  | NotInitializer | VestingFinalized | DistributionCooldown
  | VestingDurationTooLong | CliffDurationTooLong
deriving DecidableEq

/-- Program-level outcomes of the processor: a custom `VestingError`, the
builtin `ProgramError::NotEnoughAccountKeys`, or a Rust panic from an
out-of-bounds index into the fixed recipients array. -/
inductive ProgErr where
  | Custom (e : VestingError)
  | NotEnoughAccountKeys
  | IndexOutOfBounds
deriving DecidableEq

/-- Security constants of `processor.rs:64-67`. -/
def MAX_VESTING_DURATION : Int := 365 * 24 * 60 * 60

def MAX_CLIFF_DURATION : Int := 90 * 24 * 60 * 60

def DISTRIBUTION_COOLDOWN : Int := 60

/-- A recipient slot as `processor.rs` uses it (`wallet`, `percentage`,
`claimed_amount`, `last_claim_time`); wallets are pubkeys read as numbers,
`0` being `Pubkey::default()`. -/
structure PRecipient where
  wallet : Nat
  percentage : Nat
  claimed_amount : Nat
  last_claim_time : Int
deriving DecidableEq

/-- The vesting account as `processor.rs` reads and writes it, with the
`is_revoked` flag that `processor.rs` still consults (`state.rs` dropped
the field; each file is modelled as written). -/
structure PVestingAccount where
  is_initialized : Bool
  initializer : Nat
  mint : Nat
  vault : Nat
  start_time : Int
  total_amount : Nat
  schedule : VestingSchedule
  recipients : List PRecipient
  recipient_count : Nat
  is_revoked : Bool
  is_finalized : Bool
  last_distribution_time : Int
deriving DecidableEq

/-- `process_fund` (`processor.rs:293-381`).  The account checks that are
pure pubkey/flag comparisons in the source are passed in as data: `signer`
(funder signed), `pdaOk` (vault PDA matches), and the unpacked source token
account's owner, mint and balance.  The token transfer CPI is not modelled;
on every error path the source returns before `pack_into_slice`, so the
stored record is untouched exactly when the result is an error. -/
def process_fund (signer : Bool) (amount : Nat) (funderKey srcOwner srcMint : Nat)
    (srcAmount : Nat) (pdaOk : Bool) (now : Int) (v : PVestingAccount) :
    Except ProgErr PVestingAccount :=
  if ¬ signer then .error (.Custom .NotSigner)
  else if amount = 0 then .error (.Custom .InvalidAmount)
  else if ¬ v.is_initialized then .error (.Custom .NotInitialized)
  else if v.start_time ≠ 0 then .error (.Custom .AlreadyFunded)
  else if v.is_finalized then .error (.Custom .VestingFinalized)
  else if ¬ pdaOk then .error (.Custom .InvalidPDA)
  else if srcOwner ≠ funderKey then .error (.Custom .InvalidTokenOwner)
  else if srcMint ≠ v.mint then .error (.Custom .MintMismatch)
  else if srcAmount < amount then .error (.Custom .InsufficientFunds)
  else .ok { v with start_time := now, total_amount := amount, is_finalized := true }

/-- The claimable amount the distribute loop computes for one recipient
slot (`processor.rs:474-487`): zero for an empty slot, otherwise the vested
share minus what was already claimed (`saturating_sub` is `Nat`
subtraction). -/
def claimableAt (total_amount : Nat) (now start : Int) (s : VestingSchedule)
    (r : PRecipient) : Nat :=
  if r.wallet = 0 ∨ r.percentage = 0 then 0
  else
    calculate_vested_amount ((total_amount * r.percentage / 100) % 2 ^ 64)
      now start s - r.claimed_amount

/-- One iteration of the distribute loop (`processor.rs:470-534`) at index
`i`: `vesting.recipients[i]` panics when `i` is out of bounds
(`IndexOutOfBounds`); empty or fully-claimed slots are skipped; a wrong
associated token account aborts; otherwise the slot's `claimed_amount` and
`last_claim_time` are updated and the claimable amount is added to the
running total.  `expAta` is the associated-token-address derivation. -/
def distStep (expAta : Nat → Nat) (atas : List Nat) (now : Int)
    (total_amount : Nat) (start : Int) (s : VestingSchedule) (i : Nat)
    (st : List PRecipient × Nat) : Except ProgErr (List PRecipient × Nat) :=
  match st.1.get? i with
  | none => .error .IndexOutOfBounds
  | some r =>
    if r.wallet = 0 ∨ r.percentage = 0 then .ok st
    else
      let claimable := calculate_vested_amount
        ((total_amount * r.percentage / 100) % 2 ^ 64) now start s - r.claimed_amount
      if claimable = 0 then .ok st
      else if atas.getD i 0 ≠ expAta r.wallet then .error (.Custom .InvalidRecipientATA)
      else .ok (st.1.set i
          { r with claimed_amount := r.claimed_amount + claimable,
                   last_claim_time := now },
        st.2 + claimable)

/-- The distribute loop over a list of indices (the source iterates
`0..recipient_count`). -/
def distLoop (expAta : Nat → Nat) (atas : List Nat) (now : Int)
    (total_amount : Nat) (start : Int) (s : VestingSchedule) :
    List Nat → List PRecipient × Nat → Except ProgErr (List PRecipient × Nat)
  | [], st => .ok st
  | i :: rest, st =>
    match distStep expAta atas now total_amount start s i st with
    | .error e => .error e
    | .ok st' => distLoop expAta atas now total_amount start s rest st'

/-- `process_distribute_to_all` (`processor.rs:384-549`).  `signer` is the
caller's signature flag, `callerKey` the caller's pubkey, `authorityOk` the
vault-authority PDA comparison, `vaultMint` the mint of the unpacked vault
token account, `expAta` the associated-token-address derivation and `atas`
the trailing recipient ATA accounts.  The token transfer CPIs are not
modelled; every error path returns before `pack_into_slice`, so the stored
record changes exactly when the result is `ok`. -/
def process_distribute_to_all (signer : Bool) (callerKey : Nat)
    (authorityOk : Bool) (vaultMint : Nat) (expAta : Nat → Nat)
    (atas : List Nat) (now : Int) (v : PVestingAccount) :
    Except ProgErr PVestingAccount :=
  if ¬ signer then .error (.Custom .NotSigner)
  else if ¬ v.is_initialized then .error (.Custom .NotInitialized)
  else if v.initializer ≠ callerKey then .error (.Custom .NotInitializer)
  else if v.is_revoked then .error (.Custom .VestingRevoked)
  else if v.start_time = 0 then .error (.Custom .NotFunded)
  else if ¬ v.is_finalized then .error (.Custom .VestingFinalized)
  else if v.last_distribution_time > 0 ∧
      now - v.last_distribution_time < DISTRIBUTION_COOLDOWN then
    .error (.Custom .DistributionCooldown)
  else if ¬ authorityOk then .error (.Custom .InvalidAuthority)
  else if atas.length < v.recipient_count then .error .NotEnoughAccountKeys
  else if vaultMint ≠ v.mint then .error (.Custom .MintMismatch)
  else
    match distLoop expAta atas now v.total_amount v.start_time v.schedule
        (List.range v.recipient_count) (v.recipients, 0) with
    | .error e => .error e
    | .ok (recs, totalDistributed) =>
      if totalDistributed = 0 then .error (.Custom .NoClaimableAmount)
      else .ok { v with recipients := recs, last_distribution_time := now }

/-- `k` little-endian bytes of `n` (the `to_le_bytes` layout; a `Pubkey`'s
32-byte array is read the same way). -/
def leBytes : Nat → Nat → List Nat
  | 0, _ => []
  | k + 1, n => n % 256 :: leBytes k (n / 256)

/-- Little-endian decoding of a byte list (`from_le_bytes`,
`Pubkey::new_from_array`). -/
def leDecode : List Nat → Nat
  | [] => 0
  | b :: rest => b + 256 * leDecode rest

/-- The sub-slice `l[a..b]` of a byte buffer. -/
def slice (l : List Nat) (a b : Nat) : List Nat := (l.drop a).take (b - a)

/-- The byte `l[a]` of a buffer whose length has already been checked. -/
def byteAt (l : List Nat) (a : Nat) : Nat := (l.drop a).headD 0

/-- `i64::to_le_bytes` (two's complement). -/
def encodeI64 (x : Int) : List Nat := leBytes 8 (x % (2 ^ 64)).toNat

/-- `i64::from_le_bytes`. -/
def decodeI64 (l : List Nat) : Int :=
  if leDecode l < 2 ^ 63 then (leDecode l : Int) else (leDecode l : Int) - 2 ^ 64

/-- `MAX_RECIPIENTS` from `state.rs:7`. -/
def MAX_RECIPIENTS : Nat := 10

/-- `InstructionError` from `instruction.rs:7-12`. -/
inductive InstructionError where
  | InvalidInstructionData
  | InvalidRecipientCount
  | InvalidTotalPercentage
deriving DecidableEq

/-- `VestingInstruction` from `instruction.rs:22-61`; recipients are
(wallet, percentage) pairs as parsed by `try_from`. -/
inductive VestingInstruction where
  | InitializeVesting (recipients : List (Nat × Nat))
      (cliff_period vesting_period : Int) (tge_percentage : Nat)
  | Fund (amount : Nat)
  | Claim
deriving DecidableEq

/-- The recipient-entry loop of `VestingInstruction::try_from`
(`instruction.rs:107-120`): each entry is 32 wallet bytes plus one
percentage byte, read at `offset`, advancing by 33. -/
def readRecipientData : Nat → Nat → List Nat → List (Nat × Nat)
  | 0, _, _ => []
  | k + 1, offset, data =>
    (leDecode (slice data offset (offset + 32)), byteAt data (offset + 32)) ::
      readRecipientData k (offset + 33) data

/-- The `u16` sum of the parsed percentages (`instruction.rs:123-125`,
`processor.rs:163-165`; at most 10 entries of at most 255, so the `u16`
never overflows and plain `Nat` addition is exact). -/
def sumPct (l : List (Nat × Nat)) : Nat := (l.map Prod.snd).sum

/-- `VestingInstruction::try_from` (`instruction.rs:69-156`). -/
def VestingInstruction.try_from (data : List Nat) :
    Except InstructionError VestingInstruction :=
  if data.length = 0 then .error .InvalidInstructionData
  else match byteAt data 0 with
  | 0 =>
    if data.length < 19 then .error .InvalidInstructionData
    else
      let recipient_count := byteAt data 1
      if recipient_count = 0 ∨ recipient_count > MAX_RECIPIENTS then
        .error .InvalidRecipientCount
      else
        let cliff_period := decodeI64 (slice data 2 10)
        let vesting_period := decodeI64 (slice data 10 18)
        let tge_percentage := byteAt data 18
        if data.length ≠ 19 + recipient_count * 33 then
          .error .InvalidInstructionData
        else
          let recipients := readRecipientData recipient_count 19 data
          if sumPct recipients ≠ 100 then .error .InvalidTotalPercentage
          else .ok (.InitializeVesting recipients cliff_period vesting_period
            tge_percentage)
  | 1 =>
    if data.length ≠ 9 then .error .InvalidInstructionData
    else .ok (.Fund (leDecode (slice data 1 9)))
  | 2 => .ok .Claim
  | _ => .error .InvalidInstructionData

/-- The duplicate/zero-percentage loop of `process_initialize_vesting`
(`processor.rs:170-179`), carrying the set of wallets seen so far. -/
def checkRecipients : List (Nat × Nat) → List Nat → Except VestingError Unit
  | [], _ => .ok ()
  | (w, p) :: rest, seen =>
    if w ∈ seen then .error .DuplicateRecipient
    else if p = 0 then .error .ZeroPercentage
    else checkRecipients rest (w :: seen)

/-- The validation phase of `process_initialize_vesting`
(`processor.rs:103-194`), everything before the first CPI: the pure
pubkey/account comparisons are passed in as booleans (`signer`, the three
program-id checks, the PDA comparison and the `data_is_empty` check).  All
errors are returned before any account is created or written. -/
def process_initialize_vesting (signer systemOk tokenOk rentOk : Bool)
    (recipients : List (Nat × Nat)) (cliff_period vesting_period : Int)
    (tge_percentage : Nat) (pdaOk accountEmpty : Bool) :
    Except VestingError Unit :=
  if ¬ signer then .error .NotSigner
  else if ¬ systemOk then .error .InvalidSystemProgram
  else if ¬ tokenOk then .error .InvalidTokenProgram
  else if ¬ rentOk then .error .InvalidRentSysvar
  else if vesting_period > MAX_VESTING_DURATION then .error .VestingDurationTooLong
  else if cliff_period > MAX_CLIFF_DURATION then .error .CliffDurationTooLong
  else if cliff_period ≥ vesting_period then .error .CliffExceedsVesting
  else if tge_percentage > 100 then .error .InvalidPercentage
  else if recipients.length = 0 ∨ recipients.length > 10 then
    .error .InvalidRecipientCount
  else if sumPct recipients ≠ 100 then .error .InvalidTotalPercentage
  else match checkRecipients recipients [] with
    | .error e => .error e
    | .ok _ =>
      if ¬ pdaOk then .error .InvalidPDA
      else if ¬ accountEmpty then .error .AlreadyInitialized
      else .ok ()

/-- `Recipient` from `state.rs:10-16` (`basis_points` is the share field
as `state.rs` declares it). -/
structure Recipient where
  wallet : Nat
  basis_points : Nat
  claimed_amount : Nat
  last_claim_time : Int
deriving DecidableEq

/-- `Recipient::default()` (`state.rs:18-27`). -/
def defaultRecipient : Recipient := ⟨0, 0, 0, 0⟩

/-- `VestingAccount` from `state.rs:50-75` (no `is_revoked` field — the
comment at `state.rs:69-70` records its removal). -/
structure VestingAccount where
  is_initialized : Bool
  initializer : Nat
  mint : Nat
  vault : Nat
  start_time : Int
  total_amount : Nat
  schedule : VestingSchedule
  recipients : List Recipient
  recipient_count : Nat
  is_finalized : Bool
  last_distribution_time : Int
deriving DecidableEq

/-- `VestingAccount::LEN` (`state.rs:86`); evaluates to 641. -/
def VestingAccount.LEN : Nat :=
  1 + 32 + 32 + 32 + 8 + 8 + 8 + 8 + 2 + 1 + 1 + 8 + MAX_RECIPIENTS * 50

/-- The only decoding failure of `unpack_from_slice`
(`ProgramError::InvalidAccountData`). -/
inductive StateError where
  | InvalidAccountData
deriving DecidableEq

/-- The byte a packed `bool` occupies (`state.rs:200,211`). -/
def boolByte (b : Bool) : Nat := if b then 1 else 0

/-- One 50-byte recipient slot as `pack_into_slice` writes it
(`state.rs:215-221`). -/
def encodeRecipient (r : Recipient) : List Nat :=
  leBytes 32 r.wallet ++ leBytes 2 r.basis_points ++
    leBytes 8 r.claimed_amount ++ encodeI64 r.last_claim_time

/-- The recipient region `pack_into_slice` writes, slot after slot. -/
def packRecipients : List Recipient → List Nat
  | [] => []
  | r :: rest => encodeRecipient r ++ packRecipients rest

/-- `VestingAccount::pack_into_slice` (`state.rs:195-222`): the 641-byte
layout, written field by field at consecutive offsets (the source asserts
the destination length and writes at absolute offsets; concatenating the
encodings in offset order produces the same bytes). -/
def pack_into_slice (v : VestingAccount) : List Nat :=
  [boolByte v.is_initialized] ++ leBytes 32 v.initializer ++
  leBytes 32 v.mint ++ leBytes 32 v.vault ++ encodeI64 v.start_time ++
  leBytes 8 v.total_amount ++ encodeI64 v.schedule.cliff_period ++
  encodeI64 v.schedule.vesting_period ++ leBytes 2 v.schedule.tge_basis_points ++
  [v.recipient_count] ++ [boolByte v.is_finalized] ++
  encodeI64 v.last_distribution_time ++ packRecipients v.recipients

/-- The recipient loop of `unpack_from_slice` (`state.rs:142-174`): ten
50-byte slots are decoded starting at offset 141 (here: from the tail
`src.drop 141`, advancing by `drop 50` instead of `offset += 50`); slot `i`
is kept only when `i < recipient_count`, otherwise the decoded bytes are
discarded in favour of `Recipient::default()`. -/
def readRecipients (count : Nat) : Nat → Nat → List Nat → List Recipient
  | 0, _, _ => []
  | k + 1, i, bytes =>
    (if i < count then
      { wallet := leDecode (slice bytes 0 32),
        basis_points := leDecode (slice bytes 32 34),
        claimed_amount := leDecode (slice bytes 34 42),
        last_claim_time := decodeI64 (slice bytes 42 50) }
     else defaultRecipient) :: readRecipients count k (i + 1) (bytes.drop 50)

/-- `VestingAccount::unpack_from_slice` (`state.rs:88-193`): rejects any
buffer whose length differs from `LEN`, then decodes every field at its
fixed offset; the `recipient_count` byte at offset 131 is taken as-is,
without any bound check. -/
def unpack_from_slice (src : List Nat) : Except StateError VestingAccount :=
  if src.length ≠ VestingAccount.LEN then .error .InvalidAccountData
  else .ok
    { is_initialized := byteAt src 0 ≠ 0,
      initializer := leDecode (slice src 1 33),
      mint := leDecode (slice src 33 65),
      vault := leDecode (slice src 65 97),
      start_time := decodeI64 (slice src 97 105),
      total_amount := leDecode (slice src 105 113),
      schedule :=
        { cliff_period := decodeI64 (slice src 113 121),
          vesting_period := decodeI64 (slice src 121 129),
          tge_basis_points := leDecode (slice src 129 131) },
      recipients := readRecipients (byteAt src 131) 10 0 (src.drop 141),
      recipient_count := byteAt src 131,
      is_finalized := byteAt src 132 ≠ 0,
      last_distribution_time := decodeI64 (slice src 133 141) }

/-- Field ranges of the `u8/u16/u64/i64` and pubkey fields of a recipient
slot, as the Rust types enforce them. -/
def RecipientWF (r : Recipient) : Prop :=
  r.wallet < 2 ^ 256 ∧ r.basis_points < 2 ^ 16 ∧ r.claimed_amount < 2 ^ 64 ∧
  -(2 ^ 63) ≤ r.last_claim_time ∧ r.last_claim_time < 2 ^ 63

instance (r : Recipient) : Decidable (RecipientWF r) := by
  unfold RecipientWF; infer_instance

/-- Field ranges of a `VestingAccount` as the Rust types enforce them,
together with the fixed length 10 of the recipients array. -/
def VestingAccountWF (v : VestingAccount) : Prop :=
  v.initializer < 2 ^ 256 ∧ v.mint < 2 ^ 256 ∧ v.vault < 2 ^ 256 ∧
  -(2 ^ 63) ≤ v.start_time ∧ v.start_time < 2 ^ 63 ∧
  v.total_amount < 2 ^ 64 ∧
  -(2 ^ 63) ≤ v.schedule.cliff_period ∧ v.schedule.cliff_period < 2 ^ 63 ∧
  -(2 ^ 63) ≤ v.schedule.vesting_period ∧ v.schedule.vesting_period < 2 ^ 63 ∧
  v.schedule.tge_basis_points < 2 ^ 16 ∧
  v.recipient_count < 2 ^ 8 ∧
  -(2 ^ 63) ≤ v.last_distribution_time ∧ v.last_distribution_time < 2 ^ 63 ∧
  v.recipients.length = 10 ∧
  ∀ r ∈ v.recipients, RecipientWF r

instance (v : VestingAccount) : Decidable (VestingAccountWF v) := by
  unfold VestingAccountWF; infer_instance

/-- The recipient slots at indices at or above `recipient_count` are all
`Recipient::default()`. -/
def TailDefault (v : VestingAccount) : Prop :=
  ∀ j, j < 10 → v.recipient_count ≤ j →
    v.recipients.getD j defaultRecipient = defaultRecipient

instance (v : VestingAccount) : Decidable (TailDefault v) := by
  unfold TailDefault; infer_instance

instance exceptDecEq {e a : Type} [DecidableEq e] [DecidableEq a] :
    DecidableEq (Except e a) := fun x y =>
  match x, y with
  | .error c, .error d =>
    if h : c = d then isTrue (by rw [h])
    else isFalse fun hc => h (Except.error.inj hc)
  | .ok c, .ok d =>
    if h : c = d then isTrue (by rw [h])
    else isFalse fun hc => h (Except.ok.inj hc)
  | .error _, .ok _ => isFalse fun hc => Except.noConfusion hc
  | .ok _, .error _ => isFalse fun hc => Except.noConfusion hc

/-- The record `process_distribute_to_all` operates on after
`VestingAccount::unpack_from_slice`: the share slot `state.rs` calls
`basis_points` is the one `processor.rs` reads as `percentage`, and the
`is_revoked` flag `processor.rs` still checks (removed from `state.rs`) is
the `false` that `process_initialize_vesting` stores. -/
def toProcessor (v : VestingAccount) : PVestingAccount :=
  { is_initialized := v.is_initialized, initializer := v.initializer,
    mint := v.mint, vault := v.vault, start_time := v.start_time,
    total_amount := v.total_amount, schedule := v.schedule,
    recipients := v.recipients.map
      (fun r => ⟨r.wallet, r.basis_points, r.claimed_amount, r.last_claim_time⟩),
    recipient_count := v.recipient_count, is_revoked := false,
    is_finalized := v.is_finalized,
    last_distribution_time := v.last_distribution_time }

/-- A 641-byte account buffer whose `recipient_count` byte (offset 131) is
255: initialized, funded at time 1, finalized, all other bytes zero. -/
def bigCountBuf : List Nat :=
  1 :: (List.replicate 96 0 ++ (1 :: (List.replicate 33 0 ++
    (255 :: (1 :: List.replicate 508 0)))))

/-- The record `unpack_from_slice` decodes from `bigCountBuf`. -/
def bigCountAcct : VestingAccount :=
  { is_initialized := true, initializer := 0, mint := 0, vault := 0,
    start_time := 1, total_amount := 0, schedule := ⟨0, 0, 0⟩,
    recipients := List.replicate 10 defaultRecipient, recipient_count := 255,
    is_finalized := true, last_distribution_time := 0 }

/-- A concrete well-formed account with two active recipients (the second
with a negative `last_claim_time`, exercising the `i64` encoding) and all
tail slots default. -/
def sampleAcct : VestingAccount :=
  { is_initialized := true, initializer := 11, mint := 22, vault := 33,
    start_time := 44, total_amount := 55, schedule := ⟨300, 1200, 1000⟩,
    recipients := ⟨7, 6000, 1, 9⟩ :: ⟨8, 4000, 2, -5⟩ ::
      List.replicate 8 defaultRecipient,
    recipient_count := 2, is_finalized := true, last_distribution_time := 66 }

/-- A concrete funded, finalized account (one active recipient holding 50%
who has already claimed the 5 tokens vested by `now = 100`), used in
concrete evaluations; `last` is its `last_distribution_time`. -/
def fundedAcct (last : Int) : PVestingAccount :=
  { is_initialized := true, initializer := 1, mint := 2, vault := 3,
    start_time := 10, total_amount := 100, schedule := ⟨300, 1200, 10⟩,
    recipients := ⟨5, 50, 5, 0⟩ :: List.replicate 9 ⟨0, 0, 0, 0⟩,
    recipient_count := 1, is_revoked := false, is_finalized := true,
    last_distribution_time := last }

/-- The funded account before funding but already finalized (a state a
second Fund call would see if only the flag were set). -/
def unfundedFinalizedAcct : PVestingAccount := { fundedAcct 0 with start_time := 0 }

/-- The account exactly as `process_initialize_vesting` leaves it: not yet
funded, not finalized. -/
def freshAcct : PVestingAccount :=
  { fundedAcct 0 with start_time := 0, is_finalized := false }

theorem vestPct_le_100 (e : Int) : vestPct e ≤ 100 := by
  unfold vestPct; split_ifs <;> omega

theorem vestPct_mono {e1 e2 : Int} (h0 : 0 ≤ e1) (h : e1 ≤ e2) :
    vestPct e1 ≤ vestPct e2 := by
  unfold vestPct; split_ifs <;> omega

theorem calc_div_le (total p : Nat) (hp : p ≤ 100) : total * p / 100 ≤ total := by
  calc total * p / 100 ≤ total * 100 / 100 :=
        Nat.div_le_div_right (Nat.mul_le_mul_left total hp)
    _ = total := Nat.mul_div_cancel total (by norm_num)

theorem calculate_vested_amount_eq_step (total : Nat) (h : total < 2 ^ 64)
    (now start : Int) (s : VestingSchedule) :
    calculate_vested_amount total now start s = step_vesting_curve total now start := by
  unfold calculate_vested_amount step_vesting_curve vestPct
  by_cases hlt : now < start
  · simp [hlt]
  · have h0 : (0 : Int) ≤ now - start := by omega
    have hmod : ∀ p : Nat, p ≤ 100 → total * p / 100 % 2 ^ 64 = total * p / 100 := by
      intro p hp
      exact Nat.mod_eq_of_lt (lt_of_le_of_lt (calc_div_le total p hp) h)
    simp only [hlt, if_false]
    split_ifs <;> first
      | (exact hmod _ (by norm_num))
      | omega

theorem calculate_vested_amount_at_900 (total : Nat) (h : total < 2 ^ 64)
    (now start : Int) (s : VestingSchedule) (he : 900 ≤ now - start) :
    calculate_vested_amount total now start s = total := by
  unfold calculate_vested_amount
  have hns : ¬ now < start := by omega
  have hp : vestPct (now - start) = 100 := by unfold vestPct; split_ifs <;> omega
  rw [if_neg hns, hp, Nat.mul_div_cancel total (by norm_num)]
  exact Nat.mod_eq_of_lt h

/-- Claim C1 (counterexample): at total 1,000,000, elapsed 750, schedule
cliff 300 / vesting 1200 / TGE 1000 bp, `calculate_vested_amount` returns
500,000 while the spec's reference curve returns 550,000 — the function
does not equal the spec's reference definition. -/
theorem c1_counterexample :
    calculate_vested_amount 1000000 750 0 ⟨300, 1200, 1000⟩ = 500000 ∧
    spec_vesting_curve 1000000 750 0 ⟨300, 1200, 1000⟩ = 550000 ∧
    calculate_vested_amount 1000000 750 0 ⟨300, 1200, 1000⟩ ≠
      spec_vesting_curve 1000000 750 0 ⟨300, 1200, 1000⟩ := by
  refine ⟨by decide, by decide, by decide⟩

/-- Claim C1 (amended): `calculate_vested_amount` never reads its schedule
argument and equals the fixed step curve — 0 before start, then
`floor(total*p/100)` with p = 10 for elapsed ≤ 299, 20 for elapsed ≤ 599,
50 for elapsed ≤ 899 and 100 afterwards; in particular at elapsed = 750
with total 1,000,000 it returns 500,000. -/
theorem c1_amended (total : Nat) (h : total < 2 ^ 64) (now start : Int)
    (s s' : VestingSchedule) :
    calculate_vested_amount total now start s = step_vesting_curve total now start ∧
    calculate_vested_amount total now start s = calculate_vested_amount total now start s' ∧
    calculate_vested_amount 1000000 750 0 s = 500000 := by
  refine ⟨calculate_vested_amount_eq_step total h now start s, ?_, ?_⟩
  · rw [calculate_vested_amount_eq_step total h now start s,
      calculate_vested_amount_eq_step total h now start s']
  · rw [calculate_vested_amount_eq_step 1000000 (by norm_num) 750 0 s]; decide

/-- Witness for C1 (amended), at total 1,000,000, elapsed 750. -/
theorem c1_amended_witness :
    calculate_vested_amount 1000000 750 0 ⟨300, 1200, 1000⟩ =
      step_vesting_curve 1000000 750 0 ∧
    calculate_vested_amount 1000000 750 0 ⟨300, 1200, 1000⟩ = 500000 :=
  ⟨(c1_amended 1000000 (by norm_num) 750 0 ⟨300, 1200, 1000⟩ ⟨0, 1, 0⟩).1,
   (c1_amended 1000000 (by norm_num) 750 0 ⟨300, 1200, 1000⟩ ⟨0, 1, 0⟩).2.2⟩

/-- Claim C3 (counterexample): with schedule cliff 0 / vesting 10 (so
cliff < vesting) and elapsed = 10 ≥ vestingPeriod, the function returns 10,
not the full total 100 — the schedule's vestingPeriod is never consulted. -/
theorem c3_counterexample :
    (0 : Int) < 10 ∧ (10 : Int) - 0 ≥ 10 ∧
    calculate_vested_amount 100 10 0 ⟨0, 10, 0⟩ = 10 ∧
    calculate_vested_amount 100 10 0 ⟨0, 10, 0⟩ ≠ 100 := by
  refine ⟨by decide, by decide, by decide, by decide⟩

/-- Claim C3 (amended): the function returns exactly `total` once
`now - start ≥ 900` seconds (the final step of the hard-coded table), for
every schedule; the schedule's `vesting_period` plays no role. -/
theorem c3_amended (total : Nat) (h : total < 2 ^ 64) (now start : Int)
    (s : VestingSchedule) (he : 900 ≤ now - start) :
    calculate_vested_amount total now start s = total :=
  calculate_vested_amount_at_900 total h now start s he

/-- Witness for C3 (amended), at total 7, elapsed 950. -/
theorem c3_amended_witness : calculate_vested_amount 7 950 0 ⟨1, 900, 0⟩ = 7 :=
  c3_amended 7 (by norm_num) 950 0 ⟨1, 900, 0⟩ (by norm_num)

/-- Claim C8: `calculate_vested_amount` is monotone non-decreasing in the
current time, for every fixed total, start and schedule. -/
theorem c8_monotone (total : Nat) (h : total < 2 ^ 64)
    (start now1 now2 : Int) (s : VestingSchedule) (hle : now1 ≤ now2) :
    calculate_vested_amount total now1 start s ≤
      calculate_vested_amount total now2 start s := by
  unfold calculate_vested_amount
  by_cases h1 : now1 < start
  · simp [h1]
  · have h2 : ¬ now2 < start := by omega
    rw [if_neg h1, if_neg h2]
    have hm1 := Nat.mod_eq_of_lt
      (lt_of_le_of_lt (calc_div_le total _ (vestPct_le_100 (now1 - start))) h)
    have hm2 := Nat.mod_eq_of_lt
      (lt_of_le_of_lt (calc_div_le total _ (vestPct_le_100 (now2 - start))) h)
    rw [hm1, hm2]
    exact Nat.div_le_div_right
      (Nat.mul_le_mul_left total (vestPct_mono (by omega) (by omega)))

/-- Witness for C8, at total 1,000,000, times 100 and 700. -/
theorem c8_monotone_witness :
    calculate_vested_amount 1000000 100 0 ⟨300, 1200, 1000⟩ ≤
      calculate_vested_amount 1000000 700 0 ⟨300, 1200, 1000⟩ :=
  c8_monotone 1000000 (by norm_num) 0 100 700 ⟨300, 1200, 1000⟩ (by norm_num)

theorem distStep_skip (ea : Nat → Nat) (atas : List Nat) (now : Int) (ta : Nat)
    (st0 : Int) (s : VestingSchedule) (i : Nat) (st : List PRecipient × Nat)
    (r : PRecipient) (hget : st.1.get? i = some r)
    (hz : claimableAt ta now st0 s r = 0) :
    distStep ea atas now ta st0 s i st = .ok st := by
  unfold distStep
  rw [hget]
  dsimp only []
  by_cases hw : r.wallet = 0 ∨ r.percentage = 0
  · rw [if_pos hw]
  · unfold claimableAt at hz
    rw [if_neg hw] at hz
    rw [if_neg hw]
    simp only [hz]
    exact if_pos trivial

theorem distLoop_skip_all (ea : Nat → Nat) (atas : List Nat) (now : Int)
    (ta : Nat) (st0 : Int) (s : VestingSchedule) :
    ∀ (idxs : List Nat) (st : List PRecipient × Nat),
    (∀ i ∈ idxs, ∃ r, st.1.get? i = some r ∧ claimableAt ta now st0 s r = 0) →
    distLoop ea atas now ta st0 s idxs st = .ok st := by
  intro idxs
  induction idxs with
  | nil => intro st _; rfl
  | cons i rest ih =>
    intro st h
    obtain ⟨r, hget, hz⟩ := h i (by simp)
    unfold distLoop
    rw [distStep_skip ea atas now ta st0 s i st r hget hz]
    exact ih st (fun j hj => h j (by simp [hj]))

theorem distStep_error (ea : Nat → Nat) (atas : List Nat) (now : Int) (ta : Nat)
    (st0 : Int) (s : VestingSchedule) (i : Nat) (st : List PRecipient × Nat)
    (e : ProgErr) (h : distStep ea atas now ta st0 s i st = .error e) :
    e = .IndexOutOfBounds ∨ e = .Custom .InvalidRecipientATA := by
  unfold distStep at h
  cases hget : st.1.get? i with
  | none => rw [hget] at h; exact Or.inl (Except.error.inj h).symm
  | some r =>
    rw [hget] at h
    dsimp only [] at h
    split_ifs at h with h1 h2 h3 <;>
      first
        | exact Except.noConfusion h
        | exact Or.inr (Except.error.inj h).symm

theorem distLoop_error (ea : Nat → Nat) (atas : List Nat) (now : Int)
    (ta : Nat) (st0 : Int) (s : VestingSchedule) :
    ∀ (idxs : List Nat) (st : List PRecipient × Nat) (e : ProgErr),
    distLoop ea atas now ta st0 s idxs st = .error e →
    e = .IndexOutOfBounds ∨ e = .Custom .InvalidRecipientATA := by
  intro idxs
  induction idxs with
  | nil => intro st e h; exact absurd h (by simp [distLoop])
  | cons i rest ih =>
    intro st e h
    unfold distLoop at h
    cases hs : distStep ea atas now ta st0 s i st with
    | error e2 =>
      rw [hs] at h
      exact (Except.error.inj h) ▸ distStep_error ea atas now ta st0 s i st e2 hs
    | ok st2 =>
      rw [hs] at h
      exact ih st2 e h

/-- Claim C4 (counterexample): a Fund call with amount 0 against an
already-funded record fails with `InvalidAmount`, not with the
already-funded/finalized error the claim requires for every amount. -/
theorem c4_counterexample :
    process_fund true 0 1 1 2 10 true 77 (fundedAcct 0) =
      .error (.Custom .InvalidAmount) ∧
    process_fund true 0 1 1 2 10 true 77 (fundedAcct 0) ≠
      .error (.Custom .AlreadyFunded) ∧
    process_fund true 0 1 1 2 10 true 77 (fundedAcct 0) ≠
      .error (.Custom .VestingFinalized) ∧
    (fundedAcct 0).start_time ≠ 0 := by
  have h : process_fund true 0 1 1 2 10 true 77 (fundedAcct 0) =
      .error (.Custom .InvalidAmount) := rfl
  refine ⟨h, by rw [h]; simp, by rw [h]; simp, by decide⟩

/-- Claim C4 (amended): for every signed Fund call with a positive amount
against an initialized record, a non-zero `start_time` yields
`AlreadyFunded` and a set `is_finalized` flag yields `VestingFinalized`
(an amount of 0 is rejected even earlier with `InvalidAmount`); on every
error the stored record is untouched (the source returns before
`pack_into_slice`); a successful Fund requires `start_time = 0` and
`is_finalized = false` and sets `start_time = now`, `total_amount = amount`
and `is_finalized = true`, leaving all other fields unchanged. -/
theorem c4_amended :
    (∀ (amount : Nat) (fk so sm sa : Nat) (pdaOk : Bool) (now : Int)
      (v : PVestingAccount), amount ≠ 0 → v.is_initialized = true →
      v.start_time ≠ 0 →
      process_fund true amount fk so sm sa pdaOk now v =
        .error (.Custom .AlreadyFunded)) ∧
    (∀ (amount : Nat) (fk so sm sa : Nat) (pdaOk : Bool) (now : Int)
      (v : PVestingAccount), amount ≠ 0 → v.is_initialized = true →
      v.start_time = 0 → v.is_finalized = true →
      process_fund true amount fk so sm sa pdaOk now v =
        .error (.Custom .VestingFinalized)) ∧
    (∀ (signer : Bool) (amount : Nat) (fk so sm sa : Nat) (pdaOk : Bool)
      (now : Int) (v v' : PVestingAccount),
      process_fund signer amount fk so sm sa pdaOk now v = .ok v' →
      v.start_time = 0 ∧ v.is_finalized = false ∧
      v' = { v with start_time := now, total_amount := amount,
                    is_finalized := true }) := by
  refine ⟨?_, ?_, ?_⟩
  · intro amount fk so sm sa pdaOk now v ha hi hs
    unfold process_fund
    simp [ha, hi, hs]
  · intro amount fk so sm sa pdaOk now v ha hi hs hf
    unfold process_fund
    simp [ha, hi, hs, hf]
  · intro signer amount fk so sm sa pdaOk now v v' h
    unfold process_fund at h
    split_ifs at h with h1 h2 h3 h4 h5 h6 h7 h8 h9 <;>
      try exact Except.noConfusion h
    refine ⟨by omega, by simpa using h5, (Except.ok.inj h).symm⟩

/-- Witness for C4 (amended): the three parts applied at concrete inputs —
an already-funded account, an unfunded-but-finalized account, and a
successful Fund of 5 tokens at time 77 on a fresh account. -/
theorem c4_amended_witness :
    process_fund true 5 1 1 2 10 true 77 (fundedAcct 0) =
      .error (.Custom .AlreadyFunded) ∧
    process_fund true 5 1 1 2 10 true 77 unfundedFinalizedAcct =
      .error (.Custom .VestingFinalized) ∧
    (freshAcct.start_time = 0 ∧ freshAcct.is_finalized = false ∧
      ({ freshAcct with start_time := 77, total_amount := 5,
                        is_finalized := true } : PVestingAccount) =
        { freshAcct with start_time := 77, total_amount := 5,
                         is_finalized := true }) :=
  ⟨c4_amended.1 5 1 1 2 10 true 77 (fundedAcct 0) (by decide) rfl (by decide),
   c4_amended.2.1 5 1 1 2 10 true 77 unfundedFinalizedAcct (by decide) rfl rfl rfl,
   c4_amended.2.2 true 5 1 1 2 10 true 77 freshAcct _ rfl⟩

/-- Claim C5: for a funded, finalized record reached by its initializer,
`process_distribute_to_all` fails with `DistributionCooldown` whenever
`last_distribution_time > 0` and `now - last_distribution_time < 60`; it is
never rejected by the cooldown check when `now - last_distribution_time`
equals exactly 60, nor when `last_distribution_time = 0`. -/
theorem c5_cooldown :
    (∀ (ck : Nat) (auth : Bool) (vm : Nat) (ea : Nat → Nat) (atas : List Nat)
      (now : Int) (v : PVestingAccount),
      v.is_initialized = true → v.initializer = ck → v.is_revoked = false →
      v.start_time ≠ 0 → v.is_finalized = true →
      0 < v.last_distribution_time →
      now - v.last_distribution_time < DISTRIBUTION_COOLDOWN →
      process_distribute_to_all true ck auth vm ea atas now v =
        .error (.Custom .DistributionCooldown)) ∧
    (∀ (signer : Bool) (ck : Nat) (auth : Bool) (vm : Nat) (ea : Nat → Nat)
      (atas : List Nat) (now : Int) (v : PVestingAccount),
      now - v.last_distribution_time = DISTRIBUTION_COOLDOWN →
      process_distribute_to_all signer ck auth vm ea atas now v ≠
        .error (.Custom .DistributionCooldown)) ∧
    (∀ (signer : Bool) (ck : Nat) (auth : Bool) (vm : Nat) (ea : Nat → Nat)
      (atas : List Nat) (now : Int) (v : PVestingAccount),
      v.last_distribution_time = 0 →
      process_distribute_to_all signer ck auth vm ea atas now v ≠
        .error (.Custom .DistributionCooldown)) := by
  have hnotcool : ∀ (signer : Bool) (ck : Nat) (auth : Bool) (vm : Nat)
      (ea : Nat → Nat) (atas : List Nat) (now : Int) (v : PVestingAccount),
      ¬ (0 < v.last_distribution_time ∧
        now - v.last_distribution_time < DISTRIBUTION_COOLDOWN) →
      process_distribute_to_all signer ck auth vm ea atas now v ≠
        .error (.Custom .DistributionCooldown) := by
    intro signer ck auth vm ea atas now v hcool h
    unfold process_distribute_to_all at h
    by_cases h1 : ¬ signer = true
    · rw [if_pos h1] at h; exact absurd (Except.error.inj h) (by decide)
    rw [if_neg h1] at h
    by_cases h2 : ¬ v.is_initialized = true
    · rw [if_pos h2] at h; exact absurd (Except.error.inj h) (by decide)
    rw [if_neg h2] at h
    by_cases h3 : v.initializer ≠ ck
    · rw [if_pos h3] at h; exact absurd (Except.error.inj h) (by decide)
    rw [if_neg h3] at h
    by_cases h4 : v.is_revoked = true
    · rw [if_pos h4] at h; exact absurd (Except.error.inj h) (by decide)
    rw [if_neg h4] at h
    by_cases h5 : v.start_time = 0
    · rw [if_pos h5] at h; exact absurd (Except.error.inj h) (by decide)
    rw [if_neg h5] at h
    by_cases h6 : ¬ v.is_finalized = true
    · rw [if_pos h6] at h; exact absurd (Except.error.inj h) (by decide)
    rw [if_neg h6] at h
    by_cases h7 : v.last_distribution_time > 0 ∧
        now - v.last_distribution_time < DISTRIBUTION_COOLDOWN
    · exact hcool h7
    rw [if_neg h7] at h
    by_cases h8 : ¬ auth = true
    · rw [if_pos h8] at h; exact absurd (Except.error.inj h) (by decide)
    rw [if_neg h8] at h
    by_cases h9 : atas.length < v.recipient_count
    · rw [if_pos h9] at h; exact absurd (Except.error.inj h) (by decide)
    rw [if_neg h9] at h
    by_cases h10 : vm ≠ v.mint
    · rw [if_pos h10] at h; exact absurd (Except.error.inj h) (by decide)
    rw [if_neg h10] at h
    rcases hd : distLoop ea atas now v.total_amount v.start_time v.schedule
        (List.range v.recipient_count) (v.recipients, 0) with e | ⟨recs, td⟩
    · rw [hd] at h
      dsimp only [] at h
      rcases distLoop_error ea atas now v.total_amount v.start_time v.schedule
        _ _ e hd with he | he <;>
        · rw [he] at h
          exact absurd (Except.error.inj h) (by decide)
    · rw [hd] at h
      dsimp only [] at h
      by_cases ht : td = 0
      · rw [if_pos ht] at h
        exact absurd (Except.error.inj h) (by decide)
      · rw [if_neg ht] at h
        exact Except.noConfusion h
  refine ⟨?_, ?_, ?_⟩
  · intro ck auth vm ea atas now v hi hk hr hs hf hl hc
    unfold process_distribute_to_all
    rw [if_neg (by simp), if_neg (by simp [hi]), if_neg (by simp [hk]),
      if_neg (by simp [hr]), if_neg hs, if_neg (by simp [hf]),
      if_pos ⟨hl, hc⟩]
  · intro signer ck auth vm ea atas now v hb
    refine hnotcool signer ck auth vm ea atas now v ?_
    simp only [DISTRIBUTION_COOLDOWN] at hb ⊢
    omega
  · intro signer ck auth vm ea atas now v hz
    refine hnotcool signer ck auth vm ea atas now v ?_
    simp only [DISTRIBUTION_COOLDOWN, hz]
    omega

/-- Witness for C5: the funded account, last distribution at 100 — a call
at 130 hits the cooldown, calls at exactly 160 or with no previous
distribution are not cooldown-rejected. -/
theorem c5_cooldown_witness :
    process_distribute_to_all true 1 true 2 (fun _ => 0) [0] 130 (fundedAcct 100) =
      .error (.Custom .DistributionCooldown) ∧
    process_distribute_to_all true 1 true 2 (fun _ => 0) [0] 160 (fundedAcct 100) ≠
      .error (.Custom .DistributionCooldown) ∧
    process_distribute_to_all true 1 true 2 (fun _ => 0) [0] 130 (fundedAcct 0) ≠
      .error (.Custom .DistributionCooldown) :=
  ⟨c5_cooldown.1 1 true 2 (fun _ => 0) [0] 130 (fundedAcct 100) rfl rfl rfl
      (by decide) rfl (by decide) (by decide),
   c5_cooldown.2.1 true 1 true 2 (fun _ => 0) [0] 160 (fundedAcct 100) (by decide),
   c5_cooldown.2.2 true 1 true 2 (fun _ => 0) [0] 130 (fundedAcct 0) rfl⟩

/-- Claim C6: when a Distribute call passes all account checks but no
recipient below `recipient_count` has a positive claimable amount, the call
fails with `NoClaimableAmount` instead of succeeding as a no-op; since the
source returns this error before `pack_into_slice`, the stored record —
including `last_distribution_time` and every `claimed_amount` — is not
modified on that path. -/
theorem c6_no_claimable (ck : Nat) (vm : Nat) (ea : Nat → Nat)
    (atas : List Nat) (now : Int) (v : PVestingAccount)
    (hi : v.is_initialized = true) (hk : v.initializer = ck)
    (hr : v.is_revoked = false) (hs : v.start_time ≠ 0)
    (hf : v.is_finalized = true)
    (hcool : ¬ (0 < v.last_distribution_time ∧
      now - v.last_distribution_time < DISTRIBUTION_COOLDOWN))
    (hatas : v.recipient_count ≤ atas.length) (hvm : vm = v.mint)
    (hall : ∀ i < v.recipient_count, ∃ r, v.recipients.get? i = some r ∧
      claimableAt v.total_amount now v.start_time v.schedule r = 0) :
    process_distribute_to_all true ck true vm ea atas now v =
      .error (.Custom .NoClaimableAmount) := by
  unfold process_distribute_to_all
  rw [if_neg (by simp), if_neg (by simp [hi]), if_neg (by simp [hk]),
    if_neg (by simp [hr]), if_neg hs, if_neg (by simp [hf]), if_neg hcool,
    if_neg (by simp), if_neg (by omega), if_neg (by simp [hvm]),
    distLoop_skip_all ea atas now v.total_amount v.start_time v.schedule
      (List.range v.recipient_count) (v.recipients, 0)
      (fun i hi => hall i (List.mem_range.mp hi))]
  rfl

/-- Witness for C6: the funded account whose single recipient has already
claimed all 5 vested tokens at `now = 100`. -/
theorem c6_no_claimable_witness :
    process_distribute_to_all true 1 true 2 (fun _ => 0) [0] 100 (fundedAcct 0) =
      .error (.Custom .NoClaimableAmount) :=
  c6_no_claimable 1 2 (fun _ => 0) [0] 100 (fundedAcct 0) rfl rfl rfl
    (by decide) rfl (by decide) (by decide) rfl
    (by
      intro i hi
      have h0 : i = 0 := by
        have : (fundedAcct 0).recipient_count = 1 := rfl
        omega
      subst h0
      exact ⟨⟨5, 50, 5, 0⟩, rfl, by decide⟩)

theorem ite_ok {c : Prop} [Decidable c] {e : VestingError}
    {x : Except VestingError Unit}
    (h : (if c then Except.error e else x) = .ok ()) : ¬ c ∧ x = .ok () := by
  by_cases hc : c
  · rw [if_pos hc] at h
    exact Except.noConfusion h
  · exact ⟨hc, by rwa [if_neg hc] at h⟩

theorem sum_map_hundred (l : List (Nat × Nat)) :
    (l.map (fun r => 100 * r.2)).sum = 100 * sumPct l := by
  induction l with
  | nil => rfl
  | cons r rest ih => simp [sumPct, Nat.mul_add] at ih ⊢; omega

/-- Claim C2: a Create succeeds only with a recipient count in [1,10] and
shares summing to exactly 100% (10000 basis points, the code's percent
granularity times 100); a count outside [1,10] is rejected by `try_from`
with `InvalidRecipientCount`, a wrong sum with `InvalidTotalPercentage`,
two distinct errors, both raised while parsing the instruction — before
any account is read or written (the processor re-checks both conditions
before its first CPI). -/
theorem c2_create_validation :
    (∀ (signer systemOk tokenOk rentOk : Bool) (recs : List (Nat × Nat))
      (cp vp : Int) (tge : Nat) (pdaOk accountEmpty : Bool),
      process_initialize_vesting signer systemOk tokenOk rentOk recs cp vp tge
        pdaOk accountEmpty = .ok () →
      1 ≤ recs.length ∧ recs.length ≤ 10 ∧
        (recs.map (fun r => 100 * r.2)).sum = 10000) ∧
    (∀ data : List Nat, byteAt data 0 = 0 → 19 ≤ data.length →
      (byteAt data 1 = 0 ∨ byteAt data 1 > MAX_RECIPIENTS) →
      VestingInstruction.try_from data = .error .InvalidRecipientCount) ∧
    (∀ data : List Nat, byteAt data 0 = 0 → 19 ≤ data.length →
      1 ≤ byteAt data 1 → byteAt data 1 ≤ MAX_RECIPIENTS →
      data.length = 19 + byteAt data 1 * 33 →
      sumPct (readRecipientData (byteAt data 1) 19 data) ≠ 100 →
      VestingInstruction.try_from data = .error .InvalidTotalPercentage) ∧
    InstructionError.InvalidRecipientCount ≠
      InstructionError.InvalidTotalPercentage := by
  refine ⟨?_, ?_, ?_, by decide⟩
  · intro signer systemOk tokenOk rentOk recs cp vp tge pdaOk accountEmpty h
    unfold process_initialize_vesting at h
    replace h := (ite_ok h).2
    replace h := (ite_ok h).2
    replace h := (ite_ok h).2
    replace h := (ite_ok h).2
    replace h := (ite_ok h).2
    replace h := (ite_ok h).2
    replace h := (ite_ok h).2
    replace h := (ite_ok h).2
    obtain ⟨h9, h⟩ := ite_ok h
    obtain ⟨h10, _⟩ := ite_ok h
    refine ⟨by omega, by omega, ?_⟩
    rw [sum_map_hundred recs, not_not.mp h10]
  · intro data h0 hlen hcnt
    unfold VestingInstruction.try_from
    rw [if_neg (by omega), h0]
    dsimp only []
    rw [if_neg (by omega), if_pos hcnt]
  · intro data h0 hlen hc1 hc2 hl hsum
    unfold VestingInstruction.try_from
    rw [if_neg (by omega), h0]
    dsimp only []
    rw [if_neg (by omega), if_neg (by omega), if_neg (by omega), if_pos hsum]

/-- Witness for C2: a valid one-recipient Create input; a 19-byte payload
with recipient count 0; and a one-recipient payload whose single share is
50%. -/
theorem c2_create_validation_witness :
    (1 ≤ ([((1 : Nat), (100 : Nat))] : List (Nat × Nat)).length ∧
      ([((1 : Nat), (100 : Nat))] : List (Nat × Nat)).length ≤ 10 ∧
      (([((1 : Nat), (100 : Nat))] : List (Nat × Nat)).map
        (fun r => 100 * r.2)).sum = 10000) ∧
    VestingInstruction.try_from (List.replicate 19 0) =
      .error .InvalidRecipientCount ∧
    VestingInstruction.try_from
        (0 :: 1 :: List.replicate 17 0 ++ (1 :: List.replicate 31 0 ++ [50])) =
      .error .InvalidTotalPercentage :=
  ⟨c2_create_validation.1 true true true true [(1, 100)] 0 1 0 true true rfl,
   c2_create_validation.2.1 (List.replicate 19 0) (by decide) (by decide)
     (by decide),
   c2_create_validation.2.2.1
     (0 :: 1 :: List.replicate 17 0 ++ (1 :: List.replicate 31 0 ++ [50]))
     (by decide) (by decide) (by decide) (by decide) (by decide) (by decide)⟩

/-- Claim C7 (counterexample): a schedule with vestingPeriod two years
(within the claimed 4-year ceiling) is rejected with
`VestingDurationTooLong`, and one with cliffPeriod about 116 days (within
the claimed 1-year cliff ceiling) is rejected with `CliffDurationTooLong`
— the code's ceilings are 1 year and 90 days, not 4 years and 1 year. -/
theorem c7_counterexample :
    process_initialize_vesting true true true true [(1, 100)] 0 63072000 0
        true true = .error .VestingDurationTooLong ∧
    (63072000 : Int) ≤ 4 * 365 * 24 * 60 * 60 ∧
    process_initialize_vesting true true true true [(1, 100)] 10000000 20000000 0
        true true = .error .CliffDurationTooLong ∧
    (10000000 : Int) ≤ 365 * 24 * 60 * 60 := by
  exact ⟨rfl, by norm_num, rfl, by norm_num⟩

/-- Claim C7 (amended): Create rejects, with three distinct errors, any
vestingPeriod above `MAX_VESTING_DURATION` = 365 days, any cliffPeriod
above `MAX_CLIFF_DURATION` = 90 days, and any cliffPeriod not strictly
below the vestingPeriod. -/
theorem c7_amended (recs : List (Nat × Nat)) (cp vp : Int) (tge : Nat)
    (pdaOk accountEmpty : Bool) :
    (vp > MAX_VESTING_DURATION →
      process_initialize_vesting true true true true recs cp vp tge pdaOk
        accountEmpty = .error .VestingDurationTooLong) ∧
    (vp ≤ MAX_VESTING_DURATION → cp > MAX_CLIFF_DURATION →
      process_initialize_vesting true true true true recs cp vp tge pdaOk
        accountEmpty = .error .CliffDurationTooLong) ∧
    (vp ≤ MAX_VESTING_DURATION → cp ≤ MAX_CLIFF_DURATION → vp ≤ cp →
      process_initialize_vesting true true true true recs cp vp tge pdaOk
        accountEmpty = .error .CliffExceedsVesting) ∧
    (MAX_VESTING_DURATION = 365 * 24 * 60 * 60 ∧
      MAX_CLIFF_DURATION = 90 * 24 * 60 * 60) ∧
    (VestingError.VestingDurationTooLong ≠ VestingError.CliffDurationTooLong ∧
      VestingError.VestingDurationTooLong ≠ VestingError.CliffExceedsVesting ∧
      VestingError.CliffDurationTooLong ≠ VestingError.CliffExceedsVesting) := by
  refine ⟨?_, ?_, ?_, ⟨rfl, rfl⟩, by decide, by decide, by decide⟩
  · intro hvp
    unfold process_initialize_vesting
    rw [if_neg (by simp), if_neg (by simp), if_neg (by simp), if_neg (by simp),
      if_pos hvp]
  · intro hvp hcp
    unfold process_initialize_vesting
    rw [if_neg (by simp), if_neg (by simp), if_neg (by simp), if_neg (by simp),
      if_neg (by omega), if_pos hcp]
  · intro hvp hcp hge
    unfold process_initialize_vesting
    rw [if_neg (by simp), if_neg (by simp), if_neg (by simp), if_neg (by simp),
      if_neg (by omega), if_neg (by omega), if_pos hge]

/-- Witness for C7 (amended): the three rejections at concrete schedules —
vesting 40,000,000 s (> 1 year); cliff 10,000,000 s (> 90 days) with
vesting 20,000,000 s; and cliff 100 ≥ vesting 100. -/
theorem c7_amended_witness :
    process_initialize_vesting true true true true [(1, 100)] 0 40000000 0
        true true = .error .VestingDurationTooLong ∧
    process_initialize_vesting true true true true [(1, 100)] 10000000 20000000 0
        true true = .error .CliffDurationTooLong ∧
    process_initialize_vesting true true true true [(1, 100)] 100 100 0
        true true = .error .CliffExceedsVesting :=
  ⟨(c7_amended [(1, 100)] 0 40000000 0 true true).1 (by norm_num [MAX_VESTING_DURATION]),
   (c7_amended [(1, 100)] 10000000 20000000 0 true true).2.1
     (by norm_num [MAX_VESTING_DURATION]) (by norm_num [MAX_CLIFF_DURATION]),
   (c7_amended [(1, 100)] 100 100 0 true true).2.2.1
     (by norm_num [MAX_VESTING_DURATION]) (by norm_num [MAX_CLIFF_DURATION])
     (by norm_num)⟩

@[simp] theorem leBytes_length (k : Nat) : ∀ n : Nat, (leBytes k n).length = k := by
  induction k with
  | zero => intro n; rfl
  | succ k ih => intro n; simp [leBytes, ih]

@[simp] theorem encodeI64_length (x : Int) : (encodeI64 x).length = 8 := by
  simp [encodeI64]

theorem leDecode_leBytes (k : Nat) : ∀ n : Nat, n < 256 ^ k →
    leDecode (leBytes k n) = n := by
  induction k with
  | zero => intro n h; simp [pow_zero] at h; simp [leBytes, leDecode]; omega
  | succ k ih =>
    intro n h
    have hd : n / 256 < 256 ^ k := by
      have : n < 256 ^ k * 256 := by rw [← pow_succ]; exact h
      omega
    simp [leBytes, leDecode, ih (n / 256) hd]
    omega

theorem decodeI64_encodeI64 (x : Int) (h1 : -(2 ^ 63) ≤ x) (h2 : x < 2 ^ 63) :
    decodeI64 (encodeI64 x) = x := by
  have h64 : (2 : Int) ^ 64 = 18446744073709551616 := by norm_num
  have h63i : (2 : Int) ^ 63 = 9223372036854775808 := by norm_num
  have h63n : (2 : Nat) ^ 63 = 9223372036854775808 := by norm_num
  have h256 : (256 : Nat) ^ 8 = 18446744073709551616 := by norm_num
  unfold decodeI64 encodeI64
  rw [leDecode_leBytes 8 _ (by rw [h256, h64] at *; omega)]
  rw [h63n, h64, h63i] at *
  split_ifs with hc <;> omega


@[simp] theorem encodeRecipient_length (r : Recipient) :
    (encodeRecipient r).length = 50 := by
  simp [encodeRecipient]

@[simp] theorem packRecipients_length (l : List Recipient) :
    (packRecipients l).length = 50 * l.length := by
  induction l with
  | nil => rfl
  | cons r rest ih => simp [packRecipients, ih]; ring

theorem pack_length (v : VestingAccount) :
    (pack_into_slice v).length = 141 + 50 * v.recipients.length := by
  simp [pack_into_slice]
  ring

theorem readRecipients_packRecipients (count : Nat) :
    ∀ (l : List Recipient) (i : Nat),
      (∀ r ∈ l, RecipientWF r) →
      (∀ j, count ≤ i + j → l.getD j defaultRecipient = defaultRecipient) →
      readRecipients count l.length i (packRecipients l) = l := by
  intro l
  induction l with
  | nil => intro i _ _; rfl
  | cons r rest ih =>
    intro i hwf htail
    obtain ⟨hw, hbp, hca, hlc1, hlc2⟩ := hwf r (by simp)
    have hlen : (r :: rest).length = rest.length + 1 := rfl
    rw [hlen]
    simp only [readRecipients, packRecipients]
    congr 1
    · by_cases hic : i < count
      · rw [if_pos hic]
        have hs1 : slice (encodeRecipient r ++ packRecipients rest) 0 32 =
            leBytes 32 r.wallet := by
          simp [encodeRecipient, slice, List.drop_append_eq_append_drop,
            List.take_append_eq_append_take, List.drop_eq_nil_of_le,
            List.take_of_length_le]
        have hs2 : slice (encodeRecipient r ++ packRecipients rest) 32 34 =
            leBytes 2 r.basis_points := by
          simp [encodeRecipient, slice, List.drop_append_eq_append_drop,
            List.take_append_eq_append_take, List.drop_eq_nil_of_le,
            List.take_of_length_le]
        have hs3 : slice (encodeRecipient r ++ packRecipients rest) 34 42 =
            leBytes 8 r.claimed_amount := by
          simp [encodeRecipient, slice, List.drop_append_eq_append_drop,
            List.take_append_eq_append_take, List.drop_eq_nil_of_le,
            List.take_of_length_le]
        have hs4 : slice (encodeRecipient r ++ packRecipients rest) 42 50 =
            encodeI64 r.last_claim_time := by
          simp [encodeRecipient, slice, List.drop_append_eq_append_drop,
            List.take_append_eq_append_take, List.drop_eq_nil_of_le,
            List.take_of_length_le]
        rw [hs1, hs2, hs3, hs4, leDecode_leBytes 32 _ (by exact_mod_cast hw),
          leDecode_leBytes 2 _ (by exact_mod_cast hbp),
          leDecode_leBytes 8 _ (by exact_mod_cast hca),
          decodeI64_encodeI64 _ hlc1 hlc2]
      · rw [if_neg hic]
        have h0 := htail 0 (by omega)
        simpa using h0.symm
    · have hdrop : List.drop 50 (encodeRecipient r ++ packRecipients rest) =
          packRecipients rest := by
        simp [List.drop_append_eq_append_drop, List.drop_eq_nil_of_le]
      rw [hdrop]
      exact ih (i + 1) (fun q hq => hwf q (by simp [hq]))
        (fun j hj => by
          have hj1 := htail (j + 1) (by omega)
          simpa using hj1)


theorem decide_boolByte (b : Bool) : (decide (¬ boolByte b = 0)) = b := by
  cases b <;> rfl

theorem unpack_pack (v : VestingAccount) (hwf : VestingAccountWF v)
    (ht : TailDefault v) : unpack_from_slice (pack_into_slice v) = .ok v := by
  obtain ⟨h1, h2, h3, h4, h5, h6, h7, h8, h9, h10, h11, h12, h13, h14, hlen, hrec⟩ := hwf
  unfold unpack_from_slice
  rw [if_neg (by rw [pack_length, hlen]; decide)]
  have e0 : byteAt (pack_into_slice v) 0 = boolByte v.is_initialized := by
    simp [byteAt, pack_into_slice]
  have s1 : slice (pack_into_slice v) 1 33 = leBytes 32 v.initializer := by
    simp [pack_into_slice, slice, List.drop_append_eq_append_drop,
      List.take_append_eq_append_take, List.drop_eq_nil_of_le,
      List.take_of_length_le]
  have s2 : slice (pack_into_slice v) 33 65 = leBytes 32 v.mint := by
    simp [pack_into_slice, slice, List.drop_append_eq_append_drop,
      List.take_append_eq_append_take, List.drop_eq_nil_of_le,
      List.take_of_length_le]
  have s3 : slice (pack_into_slice v) 65 97 = leBytes 32 v.vault := by
    simp [pack_into_slice, slice, List.drop_append_eq_append_drop,
      List.take_append_eq_append_take, List.drop_eq_nil_of_le,
      List.take_of_length_le]
  have s4 : slice (pack_into_slice v) 97 105 = encodeI64 v.start_time := by
    simp [pack_into_slice, slice, List.drop_append_eq_append_drop,
      List.take_append_eq_append_take, List.drop_eq_nil_of_le,
      List.take_of_length_le]
  have s5 : slice (pack_into_slice v) 105 113 = leBytes 8 v.total_amount := by
    simp [pack_into_slice, slice, List.drop_append_eq_append_drop,
      List.take_append_eq_append_take, List.drop_eq_nil_of_le,
      List.take_of_length_le]
  have s6 : slice (pack_into_slice v) 113 121 = encodeI64 v.schedule.cliff_period := by
    simp [pack_into_slice, slice, List.drop_append_eq_append_drop,
      List.take_append_eq_append_take, List.drop_eq_nil_of_le,
      List.take_of_length_le]
  have s7 : slice (pack_into_slice v) 121 129 = encodeI64 v.schedule.vesting_period := by
    simp [pack_into_slice, slice, List.drop_append_eq_append_drop,
      List.take_append_eq_append_take, List.drop_eq_nil_of_le,
      List.take_of_length_le]
  have s8 : slice (pack_into_slice v) 129 131 = leBytes 2 v.schedule.tge_basis_points := by
    simp [pack_into_slice, slice, List.drop_append_eq_append_drop,
      List.take_append_eq_append_take, List.drop_eq_nil_of_le,
      List.take_of_length_le]
  have e131 : byteAt (pack_into_slice v) 131 = v.recipient_count := by
    simp [byteAt, pack_into_slice, List.drop_append_eq_append_drop,
      List.drop_eq_nil_of_le]
  have e132 : byteAt (pack_into_slice v) 132 = boolByte v.is_finalized := by
    simp [byteAt, pack_into_slice, List.drop_append_eq_append_drop,
      List.drop_eq_nil_of_le]
  have s9 : slice (pack_into_slice v) 133 141 = encodeI64 v.last_distribution_time := by
    simp [pack_into_slice, slice, List.drop_append_eq_append_drop,
      List.take_append_eq_append_take, List.drop_eq_nil_of_le,
      List.take_of_length_le]
  have sd : (pack_into_slice v).drop 141 = packRecipients v.recipients := by
    simp [pack_into_slice, List.drop_append_eq_append_drop,
      List.drop_eq_nil_of_le]
  have hread : readRecipients v.recipient_count 10 0 (packRecipients v.recipients) =
      v.recipients := by
    rw [show (10 : Nat) = v.recipients.length from hlen.symm]
    refine readRecipients_packRecipients v.recipient_count v.recipients 0 hrec ?_
    intro j hj
    by_cases hj10 : j < 10
    · exact ht j hj10 (by omega)
    · exact List.getD_eq_default _ _ (by omega)
  rw [e0, s1, s2, s3, s4, s5, s6, s7, s8, e131, e132, s9, sd, hread,
    leDecode_leBytes 32 _ (by exact_mod_cast h1),
    leDecode_leBytes 32 _ (by exact_mod_cast h2),
    leDecode_leBytes 32 _ (by exact_mod_cast h3),
    decodeI64_encodeI64 _ h4 h5,
    leDecode_leBytes 8 _ (by exact_mod_cast h6),
    decodeI64_encodeI64 _ h7 h8,
    decodeI64_encodeI64 _ h9 h10,
    leDecode_leBytes 2 _ (by exact_mod_cast h11),
    decodeI64_encodeI64 _ h13 h14, decide_boolByte, decide_boolByte]


theorem readRecipients_getD (count : Nat) :
    ∀ (k i j : Nat) (bytes : List Nat), count ≤ i + j →
      (readRecipients count k i bytes).getD j defaultRecipient =
        defaultRecipient := by
  intro k
  induction k with
  | zero => intro i j bytes h; simp [readRecipients]
  | succ k ih =>
    intro i j bytes h
    cases j with
    | zero =>
      simp only [readRecipients, List.getD_cons_zero]
      rw [if_neg (by omega)]
    | succ j =>
      simp only [readRecipients, List.getD_cons_succ]
      exact ih (i + 1) j _ (by omega)

theorem distStep_ok_length (ea : Nat → Nat) (atas : List Nat) (now : Int)
    (ta : Nat) (st0 : Int) (s : VestingSchedule) (i : Nat)
    (st st' : List PRecipient × Nat)
    (h : distStep ea atas now ta st0 s i st = .ok st') :
    st'.1.length = st.1.length := by
  unfold distStep at h
  cases hget : st.1.get? i with
  | none => rw [hget] at h; exact Except.noConfusion h
  | some r =>
    rw [hget] at h
    dsimp only [] at h
    split_ifs at h with h1 h2 h3
    · rw [← Except.ok.inj h]
    · rw [← Except.ok.inj h]
    · rw [← Except.ok.inj h]; simp

theorem distStep_oob (ea : Nat → Nat) (atas : List Nat) (now : Int) (ta : Nat)
    (st0 : Int) (s : VestingSchedule) (i : Nat) (st : List PRecipient × Nat)
    (h : distStep ea atas now ta st0 s i st = .error .IndexOutOfBounds) :
    st.1.get? i = none := by
  cases hget : st.1.get? i with
  | none => rfl
  | some r =>
    unfold distStep at h
    rw [hget] at h
    dsimp only [] at h
    split_ifs at h with h1 h2 h3 <;>
      first
        | exact Except.noConfusion h
        | exact absurd (Except.error.inj h) (by decide)

theorem distLoop_no_oob (ea : Nat → Nat) (atas : List Nat) (now : Int)
    (ta : Nat) (st0 : Int) (s : VestingSchedule) :
    ∀ (idxs : List Nat) (st : List PRecipient × Nat),
      (∀ i ∈ idxs, i < st.1.length) →
      distLoop ea atas now ta st0 s idxs st ≠ .error .IndexOutOfBounds := by
  intro idxs
  induction idxs with
  | nil => intro st _ hc; exact Except.noConfusion hc
  | cons i rest ih =>
    intro st h hc
    unfold distLoop at hc
    cases hs : distStep ea atas now ta st0 s i st with
    | error e =>
      rw [hs] at hc
      have he : e = .IndexOutOfBounds := Except.error.inj hc
      subst he
      have hnone := distStep_oob ea atas now ta st0 s i st hs
      have hlt := h i (by simp)
      have hlen := List.get?_eq_none.mp hnone
      omega
    | ok st' =>
      rw [hs] at hc
      refine ih st' (fun j hj => ?_) hc
      rw [distStep_ok_length ea atas now ta st0 s i st st' hs]
      exact h j (by simp [hj])


set_option maxRecDepth 100000 in
/-- Claim C9: `unpack_from_slice` accepts any `recipient_count` byte from a
correctly sized 641-byte buffer (here 255, far above `MAX_RECIPIENTS` =
10); the distribute loop's access `vesting.recipients[i]` at every
`i < recipient_count` stays in bounds exactly when `recipient_count` does
not exceed the array length (10 for a decoded record); on the decoded
record with `recipient_count = 255` the loop index goes out of bounds (a
Rust panic, modelled as `IndexOutOfBounds`). -/
theorem c9_unbounded_count :
    (unpack_from_slice bigCountBuf = .ok bigCountAcct ∧
      bigCountAcct.recipient_count = 255 ∧
      MAX_RECIPIENTS < bigCountAcct.recipient_count) ∧
    (∀ (ea : Nat → Nat) (atas : List Nat) (now : Int) (ta : Nat) (st0 : Int)
      (s : VestingSchedule) (recs : List PRecipient) (count : Nat),
      count ≤ recs.length →
      distLoop ea atas now ta st0 s (List.range count) (recs, 0) ≠
        .error .IndexOutOfBounds) ∧
    process_distribute_to_all true 0 true 0 (fun _ => 0)
        (List.replicate 255 0) 5 (toProcessor bigCountAcct) =
      .error .IndexOutOfBounds := by
  refine ⟨⟨by decide, rfl, by decide⟩, ?_, by decide⟩
  intro ea atas now ta st0 s recs count hle
  exact distLoop_no_oob ea atas now ta st0 s (List.range count) (recs, 0)
    (fun i hi => by
      have h2 := List.mem_range.mp hi
      show i < recs.length
      omega)

/-- Witness for C9 (the in-bounds part applied at a concrete record with
one recipient slot and count 1). -/
theorem c9_unbounded_count_witness :
    distLoop (fun _ => 0) [0] 5 100 1 ⟨300, 1200, 1000⟩ (List.range 1)
        ([⟨5, 50, 0, 0⟩], 0) ≠ .error .IndexOutOfBounds :=
  c9_unbounded_count.2.1 (fun _ => 0) [0] 5 100 1 ⟨300, 1200, 1000⟩
    [⟨5, 50, 0, 0⟩] 1 (by decide)

/-- Claim C10: packing a well-formed record whose slots at indices at or
above `recipient_count` are default and unpacking the 641 bytes returns
the identical record; `unpack_from_slice` always returns default
recipients at indices at or above `recipient_count`, whatever bytes those
slots hold; and it fails on every buffer whose length differs from
`LEN` = 641. -/
theorem c10_serialization :
    (∀ v : VestingAccount, VestingAccountWF v → TailDefault v →
      unpack_from_slice (pack_into_slice v) = .ok v) ∧
    (∀ (src : List Nat) (v : VestingAccount), unpack_from_slice src = .ok v →
      ∀ j, v.recipient_count ≤ j →
        v.recipients.getD j defaultRecipient = defaultRecipient) ∧
    (VestingAccount.LEN = 641 ∧
      ∀ src : List Nat, src.length ≠ 641 →
        unpack_from_slice src = .error .InvalidAccountData) := by
  refine ⟨unpack_pack, ?_, by decide, ?_⟩
  · intro src v h j hj
    unfold unpack_from_slice at h
    by_cases hl : src.length ≠ VestingAccount.LEN
    · rw [if_pos hl] at h
      exact Except.noConfusion h
    · rw [if_neg hl] at h
      rw [← Except.ok.inj h]
      rw [← Except.ok.inj h] at hj
      dsimp only [] at hj ⊢
      exact readRecipients_getD (byteAt src 131) 10 0 j (src.drop 141)
        (by omega)
  · intro src hl
    unfold unpack_from_slice
    rw [if_pos (by rw [show VestingAccount.LEN = 641 from by decide]; exact hl)]

/-- Witness for C10: the round trip on the concrete two-recipient account,
its tail-default property read back, and the failure on the empty buffer. -/
theorem c10_serialization_witness :
    unpack_from_slice (pack_into_slice sampleAcct) = .ok sampleAcct ∧
    sampleAcct.recipients.getD 5 defaultRecipient = defaultRecipient ∧
    unpack_from_slice [] = .error .InvalidAccountData :=
  ⟨c10_serialization.1 sampleAcct (by decide) (by decide),
   c10_serialization.2.1 (pack_into_slice sampleAcct) sampleAcct
     (c10_serialization.1 sampleAcct (by decide) (by decide)) 5 (by decide),
   c10_serialization.2.2.2 [] (by decide)⟩

end VestingOndrix
